import Mathlib

/-!
Verification of the font-flow font gallery (`src/script.js`).

The JavaScript program is shallowly embedded below:

* `Json` and `Json.parse` model the platform `JSON.parse` used by
  `loadFavorites` (values of JavaScript sets are modelled as `Json` values;
  number literals are kept as their raw lexemes, which is faithful for every
  behaviour the program exercises).
* `AppState` holds the module-level mutable state of `script.js`
  (`fonts`, `currentFilter`, `favorites`, the `localStorage` slot, the grid
  and the count element) plus a log of storage writes; the functions
  `renderFonts`, `toggleFavorite`, `saveFavorites`, `loadFavorites` are
  translated from the source.
* `copyToClipboard`, `debounce` and `showToast` are modelled with their
  environments (clipboard availability, timer firing) made explicit.
-/

mutual

/-- JavaScript JSON values, as produced by `JSON.parse`.  Numbers are kept as
their raw lexemes: the program never does arithmetic on parsed numbers.
Array elements and object members use the mutually defined spine types
`JsonSeq` and `JsonMembers` (so that equality is derivable). -/
inductive Json where
  | null : Json
  | bool (b : Bool) : Json
  | num (raw : String) : Json
  | str (s : String) : Json
  | arr (elems : JsonSeq) : Json
  | obj (fields : JsonMembers) : Json
deriving DecidableEq, Repr

/-- Spine of a JSON array. -/
inductive JsonSeq where
  | nil : JsonSeq
  | cons (hd : Json) (tl : JsonSeq) : JsonSeq
deriving DecidableEq, Repr

/-- Spine of a JSON object. -/
inductive JsonMembers where
  | nil : JsonMembers
  | cons (key : String) (val : Json) (tl : JsonMembers) : JsonMembers
deriving DecidableEq, Repr

end

/-- View a `JsonSeq` as a Lean list. -/
def JsonSeq.toList : JsonSeq → List Json
  | .nil => []
  | .cons x xs => x :: xs.toList

/-- Build a `JsonSeq` from a Lean list. -/
def JsonSeq.ofList : List Json → JsonSeq
  | [] => .nil
  | x :: xs => .cons x (JsonSeq.ofList xs)

/-- Build a `JsonMembers` from a Lean association list. -/
def JsonMembers.ofList : List (String × Json) → JsonMembers
  | [] => .nil
  | (k, v) :: xs => .cons k v (JsonMembers.ofList xs)

/-- JSON insignificant whitespace (RFC 8259: space, tab, LF, CR). -/
def jsonWs (c : Char) : Bool :=
  c = ' ' || c = '\t' || c = '\n' || c = '\r'

/-- Drop leading JSON whitespace. -/
def skipJsonWs (src : List Char) : List Char :=
  src.dropWhile jsonWs

/-- Hexadecimal digit value, for `\uXXXX` escapes. -/
def hexVal (c : Char) : Option Nat :=
  let n := c.toNat
  if 48 ≤ n ∧ n ≤ 57 then some (n - 48)
  else if 97 ≤ n ∧ n ≤ 102 then some (n - 87)
  else if 65 ≤ n ∧ n ≤ 70 then some (n - 55)
  else none

/-- Parse exactly four hex digits. -/
def parseHex4 (src : List Char) : Except String (Nat × List Char) :=
  match src with
  | c1 :: c2 :: c3 :: c4 :: rest =>
    match hexVal c1, hexVal c2, hexVal c3, hexVal c4 with
    | some a, some b, some c, some d =>
      .ok (a * 4096 + b * 256 + c * 16 + d, rest)
    | _, _, _, _ => .error "bad unicode escape"
  | _ => .error "bad unicode escape"

/-- Body of a JSON string literal, after the opening quote.  Accumulates
characters in reverse. -/
def parseStringBody (fuel : Nat) (src : List Char) (acc : List Char) :
    Except String (String × List Char) :=
  match fuel with
  | 0 => .error "no fuel"
  | fuel + 1 =>
    match src with
    | [] => .error "unterminated string"
    | c :: rest =>
      if c = '"' then .ok (String.mk acc.reverse, rest)
      else if c = '\\' then
        match rest with
        | [] => .error "unterminated escape"
        | e :: rest2 =>
          if e = '"' then parseStringBody fuel rest2 ('"' :: acc)
          else if e = '\\' then parseStringBody fuel rest2 ('\\' :: acc)
          else if e = '/' then parseStringBody fuel rest2 ('/' :: acc)
          else if e = 'b' then parseStringBody fuel rest2 ('\x08' :: acc)
          else if e = 'f' then parseStringBody fuel rest2 ('\x0c' :: acc)
          else if e = 'n' then parseStringBody fuel rest2 ('\n' :: acc)
          else if e = 'r' then parseStringBody fuel rest2 ('\r' :: acc)
          else if e = 't' then parseStringBody fuel rest2 ('\t' :: acc)
          else if e = 'u' then
            match parseHex4 rest2 with
            | .error msg => .error msg
            | .ok (n, rest3) => parseStringBody fuel rest3 (Char.ofNat n :: acc)
          else .error "bad escape"
      else if c.toNat < 32 then .error "control character in string"
      else parseStringBody fuel rest (c :: acc)

/-- Split off a run of decimal digits. -/
def spanDigits (src : List Char) : List Char × List Char :=
  (src.takeWhile Char.isDigit, src.dropWhile Char.isDigit)

/-- JSON number lexeme: `-? (0 | [1-9][0-9]*) frac? exp?`; returns the raw
lexeme. -/
def parseNumber (src : List Char) : Except String (String × List Char) :=
  let (sign, src1) :=
    match src with
    | '-' :: rest => ([('-' : Char)], rest)
    | _ => ([], src)
  match spanDigits src1 with
  | ([], _) => .error "bad number"
  | (d :: ds, src2) =>
    if d = '0' ∧ ds ≠ [] then .error "bad number"
    else
      let (frac, src3) :=
        match src2 with
        | '.' :: rest =>
          match spanDigits rest with
          | ([], _) => ([], src2)
          | (fs, rest2) => ('.' :: fs, rest2)
        | _ => ([], src2)
      if frac = [] ∧ (src2.head? = some '.') then .error "bad number"
      else
        let (ex, src4) :=
          match src3 with
          | e :: rest =>
            if e = 'e' ∨ e = 'E' then
              let (esign, rest1) :=
                match rest with
                | '+' :: r => ([('+' : Char)], r)
                | '-' :: r => ([('-' : Char)], r)
                | _ => ([], rest)
              match spanDigits rest1 with
              | ([], _) => ([], src3)
              | (es, rest2) => (e :: (esign ++ es), rest2)
            else ([], src3)
          | _ => ([], src3)
        if ex = [] ∧ (src3.head? = some 'e' ∨ src3.head? = some 'E') then
          .error "bad number"
        else .ok (String.mk (sign ++ (d :: ds) ++ frac ++ ex), src4)

mutual

/-- Parse one JSON value (leading whitespace allowed). -/
def parseValue (fuel : Nat) (src : List Char) : Except String (Json × List Char) :=
  match fuel with
  | 0 => .error "no fuel"
  | fuel + 1 =>
    match skipJsonWs src with
    | [] => .error "unexpected end of input"
    | c :: rest =>
      if c = '"' then
        match parseStringBody (rest.length + 1) rest [] with
        | .error msg => .error msg
        | .ok (s, rest2) => .ok (.str s, rest2)
      else if c = '[' then parseArrayItems fuel (skipJsonWs rest) true []
      else if c = '\x7b' then parseObjItems fuel (skipJsonWs rest) true []
      else if c = 't' then
        match rest with
        | 'r' :: 'u' :: 'e' :: rest2 => .ok (.bool true, rest2)
        | _ => .error "bad literal"
      else if c = 'f' then
        match rest with
        | 'a' :: 'l' :: 's' :: 'e' :: rest2 => .ok (.bool false, rest2)
        | _ => .error "bad literal"
      else if c = 'n' then
        match rest with
        | 'u' :: 'l' :: 'l' :: rest2 => .ok (.null, rest2)
        | _ => .error "bad literal"
      else if c = '-' ∨ c.isDigit then
        match parseNumber (c :: rest) with
        | .error msg => .error msg
        | .ok (raw, rest2) => .ok (.num raw, rest2)
      else .error "unexpected character"

/-- Items of a JSON array, after `[` (`first` until an element was read). -/
def parseArrayItems (fuel : Nat) (src : List Char) (first : Bool)
    (acc : List Json) : Except String (Json × List Char) :=
  match fuel with
  | 0 => .error "no fuel"
  | fuel + 1 =>
    match src with
    | ']' :: rest =>
      if first then .ok (.arr (JsonSeq.ofList acc.reverse), rest)
      else .error "trailing comma"
    | _ =>
      match parseValue fuel src with
      | .error msg => .error msg
      | .ok (v, rest) =>
        match skipJsonWs rest with
        | ',' :: rest2 => parseArrayItems fuel (skipJsonWs rest2) false (v :: acc)
        | ']' :: rest2 => .ok (.arr (JsonSeq.ofList (v :: acc).reverse), rest2)
        | _ => .error "expected comma or close bracket"

/-- Members of a JSON object, after the opening brace. -/
def parseObjItems (fuel : Nat) (src : List Char) (first : Bool)
    (acc : List (String × Json)) : Except String (Json × List Char) :=
  match fuel with
  | 0 => .error "no fuel"
  | fuel + 1 =>
    match src with
    | '\x7d' :: rest =>
      if first then .ok (.obj (JsonMembers.ofList acc.reverse), rest)
      else .error "trailing comma"
    | '"' :: rest =>
      match parseStringBody (rest.length + 1) rest [] with
      | .error msg => .error msg
      | .ok (k, rest2) =>
        match skipJsonWs rest2 with
        | ':' :: rest3 =>
          match parseValue fuel rest3 with
          | .error msg => .error msg
          | .ok (v, rest4) =>
            match skipJsonWs rest4 with
            | ',' :: rest5 => parseObjItems fuel (skipJsonWs rest5) false ((k, v) :: acc)
            | '\x7d' :: rest5 =>
              .ok (.obj (JsonMembers.ofList ((k, v) :: acc).reverse), rest5)
            | _ => .error "expected comma or close brace"
        | _ => .error "expected colon"
    | _ => .error "expected string key"

end

/-- `JSON.parse`: one value, whole input consumed (trailing whitespace
allowed). -/
def Json.parse (s : String) : Except String Json :=
  match parseValue (2 * s.length + 8) s.data with
  | .error msg => .error msg
  | .ok (v, rest) =>
    match skipJsonWs rest with
    | [] => .ok v
    | _ => .error "unexpected trailing characters"

/-- One hexadecimal digit (lower case), for `\u00XX` escapes. -/
def hexDigit (n : Nat) : String :=
  String.singleton (if n < 10 then Char.ofNat ('0'.toNat + n) else Char.ofNat ('a'.toNat + n - 10))

/-- `JSON.stringify` escaping for one character of a string. -/
def escapeJsonChar (c : Char) : String :=
  if c = '"' then "\\\""
  else if c = '\\' then "\\\\"
  else if c = '\x08' then "\\b"
  else if c = '\x0c' then "\\f"
  else if c = '\n' then "\\n"
  else if c = '\r' then "\\r"
  else if c = '\t' then "\\t"
  else if c.toNat < 32 then "\\u00" ++ hexDigit (c.toNat / 16) ++ hexDigit (c.toNat % 16)
  else String.singleton c

/-- A JSON string literal for `s`. -/
def quoteJsonString (s : String) : String :=
  "\"" ++ String.join (s.data.map escapeJsonChar) ++ "\""

mutual

/-- `JSON.stringify` (no indentation, no replacer), on the `Json` model. -/
def Json.stringify : Json → String
  | .null => "null"
  | .bool true => "true"
  | .bool false => "false"
  | .num raw => raw
  | .str s => quoteJsonString s
  | .arr xs => "[" ++ JsonSeq.stringifyItems xs true ++ "]"
  | .obj fs => "\x7b" ++ JsonMembers.stringifyItems fs true ++ "\x7d"

/-- Comma-separated serialisation of array elements. -/
def JsonSeq.stringifyItems : JsonSeq → Bool → String
  | .nil, _ => ""
  | .cons x xs, first =>
    (if first then "" else ",") ++ x.stringify ++ JsonSeq.stringifyItems xs false

/-- Comma-separated serialisation of object members. -/
def JsonMembers.stringifyItems : JsonMembers → Bool → String
  | .nil, _ => ""
  | .cons k v fs, first =>
    (if first then "" else ",") ++ quoteJsonString k ++ ":" ++ v.stringify ++
      JsonMembers.stringifyItems fs false

end

/-! ### Favorites store

In the source, `favorites` is a JavaScript `Set`.  It is modelled as a
duplicate-free `List Json` in insertion order (a `Set` iterates in insertion
order, and `new Set(JSON.parse(...))` can in principle hold non-string
values, hence `Json` elements; the program itself only ever inserts the
string names of fonts). -/

/-- `favorites.has(name)` — the set holds the string `name`. -/
def hasFavorite (favs : List Json) (name : String) : Bool :=
  favs.contains (Json.str name)

/-- `Set.prototype.add`: append if absent (insertion order preserved). -/
def setAdd (favs : List Json) (v : Json) : List Json :=
  if favs.contains v then favs else favs ++ [v]

/-- `Set.prototype.delete`: remove the element equal to `v` (a set holds at
most one copy, so filtering is exact). -/
def setDelete (favs : List Json) (v : Json) : List Json :=
  favs.filter (fun x => x ≠ v)

/-- `new Set(iterable-as-list)`: insert elements left to right, skipping
those already present. -/
def setFromList (xs : List Json) : List Json :=
  xs.foldl setAdd []

/-- `new Set(v)` for an arbitrary JavaScript value `v`: arrays iterate their
elements, strings iterate their characters, everything else produced by
`JSON.parse` (null, booleans, numbers, plain objects) is not iterable and
raises a `TypeError`. -/
def jsNewSet : Json → Except String (List Json)
  | .arr xs => .ok (setFromList xs.toList)
  | .str s => .ok (setFromList (s.data.map (fun c => Json.str (String.singleton c))))
  | _ => .error "TypeError: value is not iterable"

/-- `loadFavorites()` from `script.js`, as a function of the stored value of
the `fontFavorites` key (`localStorage.getItem` returns `null` → `none`) and
of the favorites set before the call.  `if (stored)` skips `null` and the
empty string; otherwise `favorites = new Set(JSON.parse(stored))` runs with
no surrounding try/catch, so a parse failure (or a `TypeError` from `new
Set`) propagates to the caller — modelled by `Except.error`. -/
def loadFavorites (stored : Option String) (favorites : List Json) :
    Except String (List Json) :=
  match stored with
  | none => .ok favorites
  | some s =>
    if s = "" then .ok favorites
    else
      match Json.parse s with
      | .error e => .error e
      | .ok j => jsNewSet j

/-- The string `saveFavorites()` writes: `JSON.stringify([...favorites])`. -/
def favoritesJson (favs : List Json) : String :=
  Json.stringify (Json.arr (JsonSeq.ofList favs))

/-! ### Application state and the render pipeline -/

/-- A font descriptor from `fonts.json` (`class` is a Lean keyword, so that
field is named `cls` here). -/
structure Font where
  name : String
  category : String
  cls : String
deriving DecidableEq, Repr

/-- One card produced by `renderFonts`: the textual/DOM content the program
sets on the card and its children. -/
structure Card where
  cardClass : String
  logoClass : String
  logoText : String
  fontName : String
  fontCategory : String
  favClass : String
  favGlyph : String
  favTitle : String
  copyIndicatorText : String
deriving DecidableEq, Repr

/-- The module-level mutable state of `script.js` together with the DOM
elements it writes (`grid`, `statsCount`) and the `fontFavorites` slot of
`localStorage`.  `storageWrites` logs every `localStorage.setItem` call. -/
structure AppState where
  fonts : List Font
  currentFilter : String
  favorites : List Json
  storage : Option String
  storageWrites : List String
  inputValue : String
  grid : List Card
  statsCount : String
deriving DecidableEq, Repr

/-- The white-space set of JavaScript `String.prototype.trim` (ECMA-262
WhiteSpace ∪ LineTerminator: tab, LF, VT, FF, CR, space, NBSP, BOM, and the
Unicode space separators). -/
def jsWhitespace (c : Char) : Bool :=
  c.toNat = 0x09 || c.toNat = 0x0a || c.toNat = 0x0b || c.toNat = 0x0c ||
  c.toNat = 0x0d || c.toNat = 0x20 || c.toNat = 0xa0 || c.toNat = 0x1680 ||
  (0x2000 ≤ c.toNat && c.toNat ≤ 0x200a) ||
  c.toNat = 0x2028 || c.toNat = 0x2029 || c.toNat = 0x202f ||
  c.toNat = 0x205f || c.toNat = 0x3000 || c.toNat = 0xfeff

/-- JavaScript `v.trim()`: drop leading and trailing white space. -/
def jsTrim (v : String) : String :=
  String.mk (((v.data.dropWhile jsWhitespace).reverse.dropWhile jsWhitespace).reverse)

/-- `input.value.trim() || "ABC"`: the trimmed input, or the default when the
trimmed input is the empty string (the only falsy string). -/
def sampleText (v : String) : String :=
  if jsTrim v = "" then "ABC" else jsTrim v

/-- The filtering in `renderFonts`: `favorites` is tested first, then `all`,
otherwise the category must equal the filter. -/
def filteredFonts (fonts : List Font) (favorites : List Json) (filter : String) :
    List Font :=
  if filter = "favorites" then fonts.filter (fun f => hasFavorite favorites f.name)
  else if filter = "all" then fonts
  else fonts.filter (fun f => f.category == filter)

/-- The same filter as a pointwise predicate on one font. -/
def filterPred (favorites : List Json) (filter : String) (f : Font) : Bool :=
  if filter = "favorites" then hasFavorite favorites f.name
  else if filter = "all" then true
  else f.category == filter

/-- The card `renderFonts` builds for one font (class names, glyph and title
of the favorite button, sample text, copy indicator). -/
def mkCard (favorites : List Json) (text : String) (font : Font) : Card :=
  { cardClass := "logo-card"
    logoClass := "logo " ++ font.cls
    logoText := text
    fontName := font.name
    fontCategory := font.category
    favClass := "favorite-btn " ++ (if hasFavorite favorites font.name then "favorited" else "")
    favGlyph := if hasFavorite favorites font.name then "★" else "☆"
    favTitle := if hasFavorite favorites font.name then "Remove from favorites"
                else "Add to favorites"
    copyIndicatorText := "Copied!" }

/-- `renderFonts(filter)`: clear the grid, filter the catalog, publish the
count, and append one card per filtered font in catalog order. -/
def renderFonts (st : AppState) (filter : String) : AppState :=
  let ff := filteredFonts st.fonts st.favorites filter
  let currentText := sampleText st.inputValue
  { st with
    grid := ff.map (mkCard st.favorites currentText)
    statsCount := toString ff.length }

/-- `saveFavorites()`: `localStorage.setItem("fontFavorites",
JSON.stringify([...favorites]))`; the write is also logged. -/
def saveFavorites (st : AppState) : AppState :=
  { st with
    storage := some (favoritesJson st.favorites)
    storageWrites := st.storageWrites ++ [favoritesJson st.favorites] }

/-- `toggleFavorite(fontName)`: flip membership, persist, and re-render only
when the current filter is `"favorites"`. -/
def toggleFavorite (fontName : String) (st : AppState) : AppState :=
  let favs :=
    if hasFavorite st.favorites fontName then setDelete st.favorites (Json.str fontName)
    else setAdd st.favorites (Json.str fontName)
  let st1 := saveFavorites { st with favorites := favs }
  if st1.currentFilter = "favorites" then renderFonts st1 st1.currentFilter else st1

/-! ### Clipboard writer

`copyToClipboard` depends on the environment: whether
`navigator.clipboard && window.isSecureContext` holds, whether
`navigator.clipboard.writeText` resolves or rejects, and what
`document.execCommand("copy")` does (return a boolean, or throw).  Throwing
primitives are modelled with `Except`; the function's own try/catch blocks
appear as matches on those `Except` values. -/

/-- Outcome of `document.execCommand("copy")`. -/
inductive ExecOutcome where
  | ok (b : Bool) : ExecOutcome
  | throws : ExecOutcome
deriving DecidableEq, Repr

/-- The browser environment `copyToClipboard` runs in. -/
structure ClipEnv where
  apiAvailable : Bool
  apiWriteResolves : Bool
  execCopy : ExecOutcome
deriving DecidableEq, Repr

/-- The temporary textarea the fallback builds for `text` (value, off-screen
fixed position, focused and selected). -/
structure TextAreaModel where
  value : String
  positionFixed : Bool
  left : String
  top : String
  focused : Bool
  selected : Bool
deriving DecidableEq, Repr

/-- The textarea as configured by lines 27–34 of `script.js`. -/
def fallbackTextArea (text : String) : TextAreaModel :=
  { value := text
    positionFixed := true
    left := "-999999px"
    top := "-999999px"
    focused := true
    selected := true }

/-- What `copyToClipboard` returns and leaves behind: the boolean result,
the temporary field the fallback created (if the fallback ran), and whether
that field is still attached to `document.body` on return. -/
structure CopyOutcome where
  returned : Bool
  tempField : Option TextAreaModel
  tempFieldAttached : Bool
deriving DecidableEq, Repr

/-- `document.execCommand("copy")` as a throwing primitive. -/
def execCommandCopy : ExecOutcome → Except String Bool
  | .ok b => .ok b
  | .throws => .error "execCommand threw"

/-- `navigator.clipboard.writeText(text)` as a rejectable promise. -/
def clipboardWriteText (env : ClipEnv) : Except String Unit :=
  if env.apiWriteResolves then .ok () else .error "writeText rejected"

/-- Lines 27–43 of `script.js`: build the textarea, append it, focus, select,
then `try { execCommand; removeChild; return ok } catch { removeChild;
return false }`. -/
def copyFallback (env : ClipEnv) (text : String) : Except String CopyOutcome :=
  let ta := fallbackTextArea text
  match execCommandCopy env.execCopy with
  | .ok successful =>
    .ok { returned := successful, tempField := some ta, tempFieldAttached := false }
  | .error _ =>
    .ok { returned := false, tempField := some ta, tempFieldAttached := false }

/-- `copyToClipboard(text)`: try the Clipboard API when available (a rejection
is caught, logged, and falls through), otherwise run the legacy fallback. -/
def copyToClipboard (env : ClipEnv) (text : String) : Except String CopyOutcome :=
  if env.apiAvailable then
    match clipboardWriteText env with
    | .ok _ => .ok { returned := true, tempField := none, tempFieldAttached := false }
    | .error _ => copyFallback env text
  else copyFallback env text

/-! ### Debouncer

`debounce(func, wait)` keeps one pending timer.  A burst of calls is a list
of `(time, args)` pairs in chronological order; `debounceStep` processes one
call (firing the pending timer first if it was already due), and
`debounceFinish` lets the last pending timer fire.  The result is the list
of `(time, args)` invocations of the wrapped function. -/

/-- State of the debounced closure: the pending timer (fire time and the
captured arguments), and the invocations of `func` so far. -/
structure DebounceState (α : Type) where
  pending : Option (Nat × α)
  fired : List (Nat × α)
deriving Repr

/-- One call of the debounced function at time `c.1` with arguments `c.2`:
a pending timer that was due strictly before now has already fired; then
`clearTimeout(timeout); timeout = setTimeout(later, wait)` replaces any
still-pending timer with one for `c.1 + wait` capturing these arguments. -/
def debounceStep (wait : Nat) (s : DebounceState α) (c : Nat × α) :
    DebounceState α :=
  let s1 : DebounceState α :=
    match s.pending with
    | some (ft, a) =>
      if ft ≤ c.1 then { pending := none, fired := s.fired ++ [(ft, a)] }
      else s
    | none => s
  { pending := some (c.1 + wait, c.2), fired := s1.fired }

/-- After the burst, the remaining pending timer (if any) fires. -/
def debounceFinish (s : DebounceState α) : List (Nat × α) :=
  match s.pending with
  | some (ft, a) => s.fired ++ [(ft, a)]
  | none => s.fired

/-- All invocations of the wrapped function produced by a burst of calls to
the debounced function. -/
def debounceRun (wait : Nat) (calls : List (Nat × α)) : List (Nat × α) :=
  debounceFinish (calls.foldl (debounceStep wait) { pending := none, fired := [] })

/-! ### Toast notifier

`showToast()` adds the `"show"` class and schedules its removal 3000 ms
later with a plain `setTimeout` — earlier timers are never cleared.  Given
the times of the `showToast` calls, the class list at a time `q` is decided
by the latest event up to `q`: each call adds at its own time and removes at
its time + 3000. -/

/-- Delay before `showToast` removes the `"show"` class. -/
def toastDelay : Nat := 3000

/-- The latest event time among `ts` that is `≤ q`. -/
def lastEventAt (ts : List Nat) (q : Nat) : Option Nat :=
  (ts.filter (fun t => t ≤ q)).max?

/-- Whether the toast carries the `"show"` class at time `q`, after
`showToast()` was called at each time in `calls`: the toast is visible when
some call has happened and no scheduled removal is more recent than the
latest call. -/
def toastVisibleAt (calls : List Nat) (q : Nat) : Bool :=
  match lastEventAt calls q, lastEventAt (calls.map (fun t => t + toastDelay)) q with
  | none, _ => false
  | some _, none => true
  | some a, some r => r ≤ a

/-! ### Helper lemmas -/

/-- `List.contains` through propositional membership. -/
theorem contains_eq_decide_mem (l : List Json) (w : Json) :
    l.contains w = decide (w ∈ l) := List.elem_eq_mem w l

/-- The filter predicate at `"favorites"`. -/
theorem filterPred_favorites (favs : List Json) :
    filterPred favs "favorites" = fun f => hasFavorite favs f.name :=
  funext fun f => by simp [filterPred]

/-- The filter predicate at `"all"`. -/
theorem filterPred_all (favs : List Json) :
    filterPred favs "all" = fun _ => true :=
  funext fun f => by simp [filterPred]

/-- The filter predicate at a category name. -/
theorem filterPred_category (favs : List Json) (fl : String)
    (h1 : fl ≠ "favorites") (h2 : fl ≠ "all") :
    filterPred favs fl = fun f => f.category == fl :=
  funext fun f => by simp [filterPred, h1, h2]

/-- The branchy filtering of `renderFonts` is pointwise filtering by
`filterPred`. -/
theorem filteredFonts_eq_filter (fonts : List Font) (favs : List Json)
    (fl : String) :
    filteredFonts fonts favs fl = fonts.filter (filterPred favs fl) := by
  by_cases h1 : fl = "favorites"
  · subst h1
    simp [filteredFonts, filterPred_favorites]
  · by_cases h2 : fl = "all"
    · subst h2
      simp [filteredFonts, h1, filterPred_all]
    · simp [filteredFonts, h1, h2, filterPred_category favs fl h1 h2]

/-- Membership after `Set.prototype.add`. -/
theorem setAdd_contains (l : List Json) (v w : Json) :
    (setAdd l v).contains w = (l.contains w || w == v) := by
  simp only [setAdd, contains_eq_decide_mem]
  by_cases hv : v ∈ l
  · by_cases hw : w = v
    · subst hw; simp [hv]
    · simp [hv, hw]
  · by_cases hw : w = v
    · subst hw; simp [hv]
    · simp [hv, hw]

/-- Membership after `Set.prototype.delete`. -/
theorem setDelete_contains (l : List Json) (v w : Json) :
    (setDelete l v).contains w = (!(w == v) && l.contains w) := by
  simp only [setDelete, contains_eq_decide_mem]
  by_cases hw : w = v
  · subst hw; simp
  · simp [hw, List.mem_filter]

/-- The favorites set after a toggle, as a standalone value. -/
def toggledFavs (n : String) (st : AppState) : List Json :=
  if hasFavorite st.favorites n then setDelete st.favorites (Json.str n)
  else setAdd st.favorites (Json.str n)

/-- Field-level description of `toggleFavorite`: the new favorites and the
persisted copy, plus the fields the call leaves alone in both branches. -/
theorem toggleFavorite_fields (n : String) (st : AppState) :
    (toggleFavorite n st).favorites = toggledFavs n st ∧
    (toggleFavorite n st).storage = some (favoritesJson (toggledFavs n st)) ∧
    (toggleFavorite n st).storageWrites
        = st.storageWrites ++ [favoritesJson (toggledFavs n st)] ∧
    (toggleFavorite n st).fonts = st.fonts ∧
    (toggleFavorite n st).currentFilter = st.currentFilter ∧
    (toggleFavorite n st).inputValue = st.inputValue := by
  unfold toggleFavorite toggledFavs saveFavorites
  by_cases h : st.currentFilter = "favorites" <;>
    simp [h, renderFonts]

/-- A concrete application state used by the witnesses: the two-font catalog
of the spec's test scenario, `"Neon"` favorited, filter `"all"`,
whitespace-only input. -/
def demoState : AppState :=
  { fonts := [{ name := "Retro", category := "serif", cls := "f-retro" },
              { name := "Neon", category := "display", cls := "f-neon" }]
    currentFilter := "all"
    favorites := [Json.str "Neon"]
    storage := none
    storageWrites := []
    inputValue := "  "
    grid := []
    statsCount := "" }

/-! ### The claims -/

/-- Claim C1: for every catalog, favorite set, and filter `f`, `renderFonts f`
produces exactly as many cards as there are catalog entries satisfying `f`'s
predicate (all entries when `f = "all"`; entries whose category equals `f`
otherwise; entries whose name is in the favorite set when
`f = "favorites"`), and the displayed count element is set to exactly that
number. -/
theorem renderFonts_card_count (st : AppState) (f : String) :
    (renderFonts st f).grid.length = st.fonts.countP (filterPred st.favorites f) ∧
    (renderFonts st f).statsCount
        = toString (st.fonts.countP (filterPred st.favorites f)) := by
  constructor
  · simp [renderFonts, filteredFonts_eq_filter, List.countP_eq_length_filter]
  · simp [renderFonts, filteredFonts_eq_filter, List.countP_eq_length_filter]

/-- Claim C7: after `renderFonts f` the grid holds exactly the cards of the
fonts passing filter `f` against the current catalog, in catalog order
restricted to the filter predicate; the result is independent of the
previous grid contents (the grid is fully cleared), and the card sequence is
a subsequence of the catalog's card sequence (no reordering). -/
theorem renderFonts_grid_exact (st : AppState) (f : String) :
    (renderFonts st f).grid
        = (st.fonts.filter (filterPred st.favorites f)).map
            (mkCard st.favorites (sampleText st.inputValue)) ∧
    (∀ g' : List Card,
      (renderFonts { st with grid := g' } f).grid = (renderFonts st f).grid) ∧
    (renderFonts st f).grid.Sublist
        (st.fonts.map (mkCard st.favorites (sampleText st.inputValue))) := by
  refine ⟨?_, ?_, ?_⟩
  · simp [renderFonts, filteredFonts_eq_filter]
  · intro g'
    simp [renderFonts, filteredFonts_eq_filter]
  · simp only [renderFonts, filteredFonts_eq_filter]
    exact List.Sublist.map _ (List.filter_sublist _)

/-- Claim C8: the sample text on every rendered card is the trimmed current
input value, and it is the fixed default `"ABC"` exactly when the trimmed
input is empty (i.e. the input was empty or whitespace-only). -/
theorem renderFonts_sampleText (st : AppState) (f : String) :
    (∀ c ∈ (renderFonts st f).grid, c.logoText = sampleText st.inputValue) ∧
    (jsTrim st.inputValue = "" → sampleText st.inputValue = "ABC") ∧
    (jsTrim st.inputValue ≠ "" → sampleText st.inputValue = jsTrim st.inputValue) := by
  refine ⟨?_, ?_, ?_⟩
  · intro c hc
    simp only [renderFonts, List.mem_map] at hc
    obtain ⟨font, -, rfl⟩ := hc
    rfl
  · intro h
    simp [sampleText, h]
  · intro h
    simp [sampleText, h]

/-- Claim C2 counterexample: with the stored value `"oops"` (present but not
parsable as JSON) the favorite set afterwards is not the empty set — the
call propagates the parse exception instead. -/
theorem loadFavorites_unparsable_not_empty :
    loadFavorites (some "oops") [] ≠ Except.ok [] := by
  have heq : loadFavorites (some "oops") []
      = Except.error "unexpected character" := rfl
  rw [heq]
  intro h
  exact Except.noConfusion h

/-- Claim C2 (amended): when the stored `fontFavorites` value is absent (or
the empty string, which the `if (stored)` guard also skips), `loadFavorites`
leaves the favorite set unchanged — the empty set at startup; when the
stored value is present, non-empty and not parsable as JSON, the
`JSON.parse` exception propagates out of `loadFavorites` instead of
defaulting to the empty set. -/
theorem loadFavorites_amended (favs : List Json) (s e : String)
    (hp : Json.parse s = .error e) (hs : s ≠ "") :
    loadFavorites none favs = .ok favs ∧
    loadFavorites (some "") favs = .ok favs ∧
    loadFavorites (some s) favs = .error e := by
  refine ⟨rfl, by simp [loadFavorites], ?_⟩
  simp [loadFavorites, hs, hp]

/-- Witness for `loadFavorites_amended` at the unparsable value `"oops"`. -/
theorem loadFavorites_amended_witness :
    loadFavorites none [] = .ok [] ∧
    loadFavorites (some "") [] = .ok [] ∧
    loadFavorites (some "oops") [] = .error "unexpected character" :=
  loadFavorites_amended [] "oops" "unexpected character" rfl (by decide)

/-- Claim C3: `toggleFavorite n` flips the membership of `n`, leaves the
membership of every other name unchanged, and persists the full updated set,
so that the stored value equals the serialisation of the in-memory set after
every toggle. -/
theorem toggleFavorite_spec (n : String) (st : AppState) :
    hasFavorite (toggleFavorite n st).favorites n = !(hasFavorite st.favorites n) ∧
    (∀ m : String, m ≠ n →
      hasFavorite (toggleFavorite n st).favorites m = hasFavorite st.favorites m) ∧
    (toggleFavorite n st).storage
        = some (favoritesJson (toggleFavorite n st).favorites) ∧
    (toggleFavorite n st).storageWrites
        = st.storageWrites ++ [favoritesJson (toggleFavorite n st).favorites] := by
  obtain ⟨hfav, hstore, hwrites, -, -, -⟩ := toggleFavorite_fields n st
  refine ⟨?_, ?_, by rw [hstore, hfav], by rw [hwrites, hfav]⟩
  · rw [hfav]
    unfold toggledFavs
    by_cases h : hasFavorite st.favorites n
    · rw [if_pos h]
      unfold hasFavorite at h ⊢
      have hmem : Json.str n ∈ st.favorites := by
        rw [contains_eq_decide_mem] at h
        exact of_decide_eq_true h
      rw [setDelete_contains]
      simp [h, hmem]
    · rw [if_neg h]
      unfold hasFavorite at h ⊢
      simp only [Bool.not_eq_true] at h
      have hmem : Json.str n ∉ st.favorites := by
        rw [contains_eq_decide_mem] at h
        exact of_decide_eq_false h
      rw [setAdd_contains]
      simp [h, hmem]
  · intro m hm
    have hne : (Json.str m == Json.str n) = false := by
      simp [hm]
    rw [hfav]
    unfold toggledFavs
    by_cases h : hasFavorite st.favorites n
    · rw [if_pos h]
      unfold hasFavorite
      rw [setDelete_contains, hne]
      simp
    · rw [if_neg h]
      unfold hasFavorite
      rw [setAdd_contains, hne]
      simp

/-- Witness for `toggleFavorite_spec`: toggling `"Neon"` on a state that has
it flips it off and does not disturb `"Retro"`. -/
theorem toggleFavorite_spec_witness :
    hasFavorite (toggleFavorite "Neon" demoState).favorites "Neon"
        = !(hasFavorite demoState.favorites "Neon") ∧
    hasFavorite (toggleFavorite "Neon" demoState).favorites "Retro"
        = hasFavorite demoState.favorites "Retro" :=
  ⟨(toggleFavorite_spec "Neon" demoState).1,
   (toggleFavorite_spec "Neon" demoState).2.1 "Retro" (by decide)⟩

/-- Claim C4: toggling the same name twice returns the favorite set to its
original membership (for every name), and appends exactly two entries to the
log of storage writes. -/
theorem toggleFavorite_twice (n : String) (st : AppState) :
    (∀ m : String,
      hasFavorite (toggleFavorite n (toggleFavorite n st)).favorites m
        = hasFavorite st.favorites m) ∧
    (toggleFavorite n (toggleFavorite n st)).storageWrites.length
        = st.storageWrites.length + 2 := by
  obtain ⟨hfav1, -, hwrites1, -, -, -⟩ := toggleFavorite_fields n st
  obtain ⟨hfav2, -, hwrites2, -, -, -⟩ := toggleFavorite_fields n (toggleFavorite n st)
  constructor
  · intro m
    rw [hfav2]
    unfold toggledFavs
    rw [hfav1]
    unfold toggledFavs hasFavorite
    by_cases h : st.favorites.contains (Json.str n) = true
    · rw [if_pos h]
      have hdel : (setDelete st.favorites (Json.str n)).contains (Json.str n) = false := by
        rw [setDelete_contains]; simp
      rw [if_neg (by rw [hdel]; simp)]
      rw [setAdd_contains, setDelete_contains]
      by_cases hw : Json.str m = Json.str n
      · rw [hw]
        have hmem : Json.str n ∈ st.favorites := by
          rw [contains_eq_decide_mem] at h
          exact of_decide_eq_true h
        simp [h, hmem]
      · have hwb : (Json.str m == Json.str n) = false := by simp [hw]
        rw [hwb]
        simp
    · rw [if_neg h]
      simp only [Bool.not_eq_true] at h
      have hadd : (setAdd st.favorites (Json.str n)).contains (Json.str n) = true := by
        rw [setAdd_contains]; simp
      rw [if_pos hadd]
      rw [setDelete_contains, setAdd_contains]
      by_cases hw : Json.str m = Json.str n
      · rw [hw]
        have hmem : Json.str n ∉ st.favorites := by
          rw [contains_eq_decide_mem] at h
          exact of_decide_eq_false h
        simp [h, hmem]
      · have hwb : (Json.str m == Json.str n) = false := by simp [hw]
        rw [hwb]
        simp
  · rw [hwrites2, hwrites1]
    simp

/-- Claim C10: when the current filter is not `"favorites"`,
`toggleFavorite n` does not re-render: the grid, the displayed count, the
catalog, the filter and the input value are all unchanged, and the only
fields that change are the favorite set, its persisted copy, and the write
log. -/
theorem toggleFavorite_no_rerender (n : String) (st : AppState)
    (h : st.currentFilter ≠ "favorites") :
    (toggleFavorite n st).grid = st.grid ∧
    (toggleFavorite n st).statsCount = st.statsCount ∧
    (toggleFavorite n st).fonts = st.fonts ∧
    (toggleFavorite n st).currentFilter = st.currentFilter ∧
    (toggleFavorite n st).inputValue = st.inputValue ∧
    (toggleFavorite n st).favorites = toggledFavs n st ∧
    (toggleFavorite n st).storage = some (favoritesJson (toggledFavs n st)) ∧
    (toggleFavorite n st).storageWrites
        = st.storageWrites ++ [favoritesJson (toggledFavs n st)] := by
  unfold toggleFavorite toggledFavs saveFavorites
  simp [h]

/-- Witness for `toggleFavorite_no_rerender` on the demo state (filter
`"all"`). -/
theorem toggleFavorite_no_rerender_witness :
    (toggleFavorite "Retro" demoState).grid = demoState.grid ∧
    (toggleFavorite "Retro" demoState).statsCount = demoState.statsCount :=
  ⟨(toggleFavorite_no_rerender "Retro" demoState (by decide)).1,
   (toggleFavorite_no_rerender "Retro" demoState (by decide)).2.1⟩

/-- Witness for `renderFonts_sampleText`: on the demo state (whitespace-only
input) the first card shows the default sample text `"ABC"`. -/
theorem renderFonts_sampleText_witness :
    (mkCard demoState.favorites (sampleText demoState.inputValue)
        { name := "Retro", category := "serif", cls := "f-retro" }).logoText
      = sampleText demoState.inputValue ∧
    sampleText demoState.inputValue = "ABC" :=
  ⟨(renderFonts_sampleText demoState "all").1 _ (by decide),
   (renderFonts_sampleText demoState "all").2.1 (by decide)⟩

/-- The boolean the spec assigns to the legacy path: the reported outcome of
the copy command, and `false` when it threw. -/
def execCopyResult : ExecOutcome → Bool
  | .ok b => b
  | .throws => false

/-- Claim C5: `copyToClipboard` never throws to its caller; every returned
outcome has the temporary field detached; the modern path returns `true`
directly when it succeeds; and whenever the modern path is unavailable or
fails, the fallback creates the off-screen text field, returns exactly the
legacy command's reported outcome (`false` on an exception), and the field
is removed before returning. -/
theorem copyToClipboard_spec (env : ClipEnv) (text : String) :
    (copyToClipboard env text).isOk = true ∧
    (∀ r : CopyOutcome, copyToClipboard env text = .ok r →
      r.tempFieldAttached = false) ∧
    (env.apiAvailable = true → env.apiWriteResolves = true →
      copyToClipboard env text
        = .ok { returned := true, tempField := none, tempFieldAttached := false }) ∧
    (env.apiAvailable = false ∨ env.apiWriteResolves = false →
      copyToClipboard env text
        = .ok { returned := execCopyResult env.execCopy
                tempField := some (fallbackTextArea text)
                tempFieldAttached := false }) := by
  obtain ⟨a, w, ex⟩ := env
  cases a <;> cases w <;> cases ex <;>
    simp [copyToClipboard, copyFallback, clipboardWriteText, execCommandCopy,
      execCopyResult, Except.isOk, Except.toBool]

/-- Witness for `copyToClipboard_spec` in an environment without the modern
clipboard where the legacy command reports success. -/
theorem copyToClipboard_spec_witness :
    (copyToClipboard
        { apiAvailable := false, apiWriteResolves := true, execCopy := .ok true }
        "Neon").isOk = true ∧
    copyToClipboard
        { apiAvailable := false, apiWriteResolves := true, execCopy := .ok true }
        "Neon"
      = .ok { returned := execCopyResult (.ok true)
              tempField := some (fallbackTextArea "Neon")
              tempFieldAttached := false } ∧
    ({ returned := true, tempField := some (fallbackTextArea "Neon")
       tempFieldAttached := false } : CopyOutcome).tempFieldAttached = false :=
  ⟨(copyToClipboard_spec
      { apiAvailable := false, apiWriteResolves := true, execCopy := .ok true }
      "Neon").1,
   (copyToClipboard_spec
      { apiAvailable := false, apiWriteResolves := true, execCopy := .ok true }
      "Neon").2.2.2 (Or.inl rfl),
   (copyToClipboard_spec
      { apiAvailable := false, apiWriteResolves := true, execCopy := .ok true }
      "Neon").2.1 _ rfl⟩

/-- Burst invariant for the debouncer: while consecutive calls are separated
by less than `wait`, the pending timer never fires, so the fold only
replaces the pending entry and the last call wins. -/
theorem debounce_foldl_burst (wait : Nat) (p : Nat × α) (rest : List (Nat × α))
    (fired : List (Nat × α))
    (h : List.Chain' (fun a b : Nat × α => a.1 ≤ b.1 ∧ b.1 < a.1 + wait) (p :: rest)) :
    rest.foldl (debounceStep wait)
        { pending := some (p.1 + wait, p.2), fired := fired }
      = { pending := some ((rest.getLastD p).1 + wait, (rest.getLastD p).2),
          fired := fired } := by
  induction rest generalizing p with
  | nil => simp [List.getLastD]
  | cons q rest2 ih =>
    rw [List.chain'_cons] at h
    obtain ⟨⟨hle, hlt⟩, hchain⟩ := h
    have hstep :
        debounceStep wait { pending := some (p.1 + wait, p.2), fired := fired } q
          = { pending := some (q.1 + wait, q.2), fired := fired } := by
      simp only [debounceStep]
      rw [if_neg (by omega : ¬ (p.1 + wait ≤ q.1))]
    rw [List.foldl_cons, hstep, ih q hchain, List.getLastD_cons]

/-- Claim C6: for every wait time and every burst of calls in which each call
follows the previous one after less than the wait time, the wrapped function
is invoked exactly once, at wait time after the final call, with the
arguments of the final call. -/
theorem debounce_burst (wait : Nat) (c : Nat × α) (rest : List (Nat × α))
    (h : List.Chain' (fun a b : Nat × α => a.1 ≤ b.1 ∧ b.1 < a.1 + wait) (c :: rest)) :
    debounceRun wait (c :: rest)
      = [((rest.getLastD c).1 + wait, (rest.getLastD c).2)] := by
  unfold debounceRun
  rw [List.foldl_cons]
  have h0 : debounceStep wait { pending := none, fired := [] } c
      = { pending := some (c.1 + wait, c.2), fired := [] } := by
    simp [debounceStep]
  rw [h0, debounce_foldl_burst wait c rest [] h]
  simp [debounceFinish]

/-- Witness for `debounce_burst`: three calls at 0, 100 and 250 ms with a
300 ms wait produce exactly one invocation, at 550 ms, with the last call's
arguments. -/
theorem debounce_burst_witness :
    debounceRun 300 [((0 : Nat), "a"), (100, "b"), (250, "c")] = [(550, "c")] :=
  debounce_burst 300 (0, "a") [(100, "b"), (250, "c")]
    (List.chain'_cons.mpr ⟨⟨by decide, by decide⟩,
      List.chain'_cons.mpr ⟨⟨by decide, by decide⟩, List.chain'_singleton _⟩⟩)

/-- Claim C9 counterexample: `showToast` at times 0 and 2900 — the second
call while the toast is still visible.  If the hide timer were re-armed so
that the toast hides 3000 ms after the most recent call, the toast would
still be visible at 3000 ms (3000 < 2900 + 3000); instead the first call's
timer fires and the toast is already hidden. -/
theorem showToast_not_last_call_wins :
    toastVisibleAt [0, 2900] 2999 = true ∧ toastVisibleAt [0, 2900] 3000 = false := by
  decide

/-- Claim C9 (amended): `showToast()` makes the toast visible and schedules
an independent removal 3000 ms later without cancelling earlier timers; a
second overlapping call keeps the toast visible only until the first call's
timer fires, i.e. the toast hides 3000 ms after the first call of the
overlapping pair (first timer wins), not after the most recent call. -/
theorem showToast_amended (t1 t2 q : Nat) (h1 : t1 ≤ t2)
    (h2 : t2 < t1 + toastDelay) :
    (t1 ≤ q → q < t1 + toastDelay →
      toastVisibleAt [t1] q = true ∧ toastVisibleAt [t1, t2] q = true) ∧
    (t1 + toastDelay ≤ q →
      toastVisibleAt [t1] q = false ∧ toastVisibleAt [t1, t2] q = false) := by
  unfold toastDelay at h2
  unfold toastVisibleAt lastEventAt toastDelay
  constructor
  · intro hq1 hq2
    have hr1 : ¬ (t1 + 3000 ≤ q) := by omega
    have hr2 : ¬ (t2 + 3000 ≤ q) := by omega
    constructor
    · simp [List.filter, hq1, hr1, List.max?]
    · by_cases hq3 : t2 ≤ q <;>
        simp [List.filter, hq1, hq3, hr1, hr2, List.max?, List.foldl]
  · intro hq
    have hq1 : t1 ≤ q := by omega
    have hq2 : t2 ≤ q := by omega
    have hr1 : t1 + 3000 ≤ q := by omega
    constructor
    · simp [List.filter, hq1, hr1, List.max?, List.foldl]
    · by_cases hr2 : t2 + 3000 ≤ q
      · simp [List.filter, hq1, hq2, hr1, hr2, List.max?, List.foldl]
      · simp [List.filter, hq1, hq2, hr1, hr2, List.max?, List.foldl]
        omega

/-- Witness for `showToast_amended` with calls at 0 and 2900 ms: visible at
2999 ms, hidden at 3000 ms. -/
theorem showToast_amended_witness :
    toastVisibleAt [0, 2900] 2999 = true ∧ toastVisibleAt [0, 2900] 3000 = false :=
  ⟨((showToast_amended 0 2900 2999 (by decide) (by decide)).1
      (by decide) (by decide)).2,
   ((showToast_amended 0 2900 3000 (by decide) (by decide)).2 (by decide)).2⟩
